import Mathlib

/-!
Shallow embedding of the express-mcp core (registry, protocol dispatcher,
REST bridge) from `src/middleware/index.ts`, together with theorems that
settle the specification claims about it.

JavaScript runtime values are modelled by the inductive `Value`; async
functions that may throw are modelled as `Except Err`-returning functions;
the global fetch is a parameter (`Network`), so outbound HTTP behaviour is
explicit in every statement.
-/

namespace ExpressMCP

/-- Dynamic JavaScript/JSON values as handled by the middleware
(`req.body`, tool-call arguments, handler results). -/
inductive Value where
  | undefined
  | null
  | bool (b : Bool)
  | num (n : Int)
  | str (s : String)
  | arr (xs : List Value)
  | obj (kvs : List (String × Value))

/-- Thrown JavaScript errors: only the `.message` field is observed by the
middleware (`error.message || '...'`). -/
structure Err where
  message : String

/-- Association-list lookup keyed by string, modelling both JS plain-object
property access and `Map.prototype.get`. -/
def mapGet (m : List (String × α)) (k : String) : Option α :=
  (m.find? (fun p => p.1 == k)).map (fun p => p.2)

/-- `Map.prototype.set`: replace the value at an existing key in place
(preserving iteration order), otherwise append at the end. -/
def mapSet : List (String × α) → String → α → List (String × α)
  | [], k, v => [(k, v)]
  | p :: rest, k, v => if p.1 == k then (k, v) :: rest else p :: mapSet rest k v

/-- Object-spread merge `\x7b...old, ...nw\x7d`: keys of `old` keep their
positions (overridden values taken from `nw`), keys only in `nw` follow. -/
def spreadMerge (old nw : List (String × α)) : List (String × α) :=
  old.map (fun p => match mapGet nw p.1 with
    | some v => (p.1, v)
    | none => p)
  ++ nw.filter (fun p => (mapGet old p.1).isNone)

/-- JS truthiness of a value. -/
def jsTruthy : Value → Bool
  | .undefined => false
  | .null => false
  | .bool b => b
  | .num n => !(n == 0)
  | .str s => !(s == "")
  | .arr _ => true
  | .obj _ => true

/-- `typeof v === 'object'` for non-null values (arrays included). -/
def jsIsObject : Value → Bool
  | .arr _ => true
  | .obj _ => true
  | _ => false

/-- `value !== undefined && value !== null`. -/
def isDefined : Value → Bool
  | .undefined => false
  | .null => false
  | _ => true

/-- Whether a value is literally `undefined`. -/
def isUndefined : Value → Bool
  | .undefined => true
  | _ => false

/-- `Array.prototype.join(', ')` over strings (used for the available-tools
error message). -/
def joinComma : List String → String
  | [] => ""
  | [s] => s
  | s :: rest => s ++ ", " ++ joinComma rest

/-- `Array.prototype.join('&')` over strings (query-string assembly). -/
def joinAmp : List String → String
  | [] => ""
  | [s] => s
  | s :: rest => s ++ "&" ++ joinAmp rest

/-- First-occurrence substring replacement, as JS
`String.prototype.replace(pat, rep)` with a string pattern. -/
def listReplaceFirst : List Char → List Char → List Char → List Char
  | [], pat, rep => if List.isPrefixOf pat [] then rep else []
  | c :: cs, pat, rep =>
    if List.isPrefixOf pat (c :: cs) then rep ++ List.drop pat.length (c :: cs)
    else c :: listReplaceFirst cs pat rep

/-- `String.prototype.replace` with a plain-string pattern (first match only;
no match leaves the string unchanged). -/
def replaceFirst (s pat rep : String) : String :=
  ⟨listReplaceFirst s.data pat.data rep.data⟩

/-- Substring occurrence test on character lists. -/
def listContains : List Char → List Char → Bool
  | [], pat => List.isPrefixOf pat []
  | c :: cs, pat => List.isPrefixOf pat (c :: cs) || listContains cs pat

/-- `String.prototype.includes`. -/
def strContains (s pat : String) : Bool :=
  listContains s.data pat.data

/-- Regex `\w` character class (ASCII word characters). -/
def isWordChar (c : Char) : Bool :=
  c.isAlphanum || c == '_'

/-- Names captured by scanning a path template with the regex `:(\w+)/g`:
at each `:`, the following maximal nonempty run of word characters is a
path-parameter name; scanning resumes after the match. -/
def pathParams : List Char → List String
  | [] => []
  | c :: cs =>
    if c == ':' then
      let w := cs.takeWhile isWordChar
      if w.isEmpty then pathParams cs
      else String.mk w :: pathParams (cs.drop w.length)
    else pathParams cs
termination_by s => s.length
decreasing_by
  all_goals (try simp_wf)
  all_goals (have h := List.length_drop (List.takeWhile isWordChar cs).length cs
             simp only [List.length_cons] at *
             omega)

/-- Opening brace character, kept out of string literals. -/
def obrace : String := String.singleton (Char.ofNat 123)

/-- Closing brace character, kept out of string literals. -/
def cbrace : String := String.singleton (Char.ofNat 125)

/-- Hexadecimal digit (uppercase), for percent- and unicode-escapes. -/
def hexDigit (n : Nat) : Char :=
  if n < 10 then Char.ofNat (48 + n) else Char.ofNat (55 + n)

/-- JSON string escaping of one character, as `JSON.stringify` performs it. -/
def jsonEscapeChar (c : Char) : String :=
  if c == '"' then "\\\""
  else if c == '\\' then "\\\\"
  else if c == '\n' then "\\n"
  else if c == '\t' then "\\t"
  else if c == '\r' then "\\r"
  else if c == Char.ofNat 8 then "\\b"
  else if c == Char.ofNat 12 then "\\f"
  else if c.toNat < 32 then
    "\\u00" ++ String.singleton (hexDigit (c.toNat / 16)) ++ String.singleton (hexDigit (c.toNat % 16))
  else String.singleton c

/-- JSON quoting of a string. -/
def jsonQuote (s : String) : String :=
  "\"" ++ String.join (s.data.map jsonEscapeChar) ++ "\""

mutual
/-- Compact `JSON.stringify(v)` (no indent argument), used for outbound
request bodies. `undefined` is only reachable inside arrays, where JSON
serialization renders it as `null`. -/
def jsonC : Value → String
  | .undefined => "null"
  | .null => "null"
  | .bool b => if b then "true" else "false"
  | .num n => toString n
  | .str s => jsonQuote s
  | .arr xs => "[" ++ jsonCArr xs ++ "]"
  | .obj kvs => obrace ++ jsonCObj kvs ++ cbrace
/-- Array elements of compact stringification, comma separated. -/
def jsonCArr : List Value → String
  | [] => ""
  | [v] => jsonC v
  | v :: rest => jsonC v ++ "," ++ jsonCArr rest
/-- Object entries of compact stringification; `undefined`-valued entries
are dropped, as `JSON.stringify` does. -/
def jsonCObj : List (String × Value) → String
  | [] => ""
  | (k, v) :: rest =>
    if isUndefined v then jsonCObj rest
    else jsonQuote k ++ ":" ++ jsonC v ++
      (if rest.all (fun q => isUndefined q.2) then "" else ",") ++ jsonCObj rest
end

mutual
/-- Pretty `JSON.stringify(v, null, 2)` at current indentation `ind`,
used for the `text` fields of protocol results. -/
def jsonP (ind : String) : Value → String
  | .undefined => "null"
  | .null => "null"
  | .bool b => if b then "true" else "false"
  | .num n => toString n
  | .str s => jsonQuote s
  | .arr xs =>
    if xs.isEmpty then "[]"
    else "[\n" ++ jsonPArr (ind ++ "  ") xs ++ "\n" ++ ind ++ "]"
  | .obj kvs =>
    if kvs.all (fun q => isUndefined q.2) then obrace ++ cbrace
    else obrace ++ "\n" ++ jsonPObj (ind ++ "  ") kvs ++ "\n" ++ ind ++ cbrace
/-- Array elements of pretty stringification, one per line. -/
def jsonPArr (ind : String) : List Value → String
  | [] => ""
  | [v] => ind ++ jsonP ind v
  | v :: rest => ind ++ jsonP ind v ++ ",\n" ++ jsonPArr ind rest
/-- Object entries of pretty stringification; `undefined`-valued entries
are dropped. -/
def jsonPObj (ind : String) : List (String × Value) → String
  | [] => ""
  | (k, v) :: rest =>
    if isUndefined v then jsonPObj ind rest
    else ind ++ jsonQuote k ++ ": " ++ jsonP ind v ++
      (if rest.all (fun q => isUndefined q.2) then "" else ",\n") ++ jsonPObj ind rest
end

mutual
/-- JavaScript `String(v)` coercion (template literals, path substitution,
`URLSearchParams` values). -/
def valueToString : Value → String
  | .undefined => "undefined"
  | .null => "null"
  | .bool b => if b then "true" else "false"
  | .num n => toString n
  | .str s => s
  | .arr xs => vtsList xs
  | .obj _ => "[object Object]"
/-- `Array.prototype.toString`: elements joined by commas, with `null` and
`undefined` rendered as empty strings. -/
def vtsList : List Value → String
  | [] => ""
  | [v] => vtsElem v
  | v :: rest => vtsElem v ++ "," ++ vtsList rest
/-- One array element under `Array.prototype.toString`. -/
def vtsElem : Value → String
  | .undefined => ""
  | .null => ""
  | v => valueToString v
end

/-- UTF-8 encoding of one character as byte values. -/
def utf8Bytes (c : Char) : List Nat :=
  let n := c.toNat
  if n < 128 then [n]
  else if n < 2048 then [192 + n / 64, 128 + n % 64]
  else if n < 65536 then [224 + n / 4096, 128 + (n / 64) % 64, 128 + n % 64]
  else [240 + n / 262144, 128 + (n / 4096) % 64, 128 + (n / 64) % 64, 128 + n % 64]

/-- Bytes serialized verbatim by `URLSearchParams.toString`
(`A-Z a-z 0-9 * - . _`). -/
def isUnreservedByte (b : Nat) : Bool :=
  (48 ≤ b && b ≤ 57) || (65 ≤ b && b ≤ 90) || (97 ≤ b && b ≤ 122) ||
    b == 42 || b == 45 || b == 46 || b == 95

/-- `application/x-www-form-urlencoded` serialization of one string, as
`URLSearchParams.toString` applies to each key and value. -/
def formEncode (s : String) : String :=
  String.join ((s.data.map utf8Bytes).flatten.map (fun b =>
    if isUnreservedByte b then String.singleton (Char.ofNat b)
    else if b == 32 then "+"
    else "%" ++ String.singleton (hexDigit (b / 16)) ++ String.singleton (hexDigit (b % 16))))

/-! ## Data model: tools, routes, configuration, registry -/

/-- The subset of the originating Express request observed by the
middleware: the headers it forwards or derives the base URL from. -/
structure ReqInfo where
  xForwardedProto : Option String
  host : Option String
  authorization : Option String

/-- Async resource/prompt resolver `(params) => content`; rejection carries
an `Err`. -/
def Handler : Type := Value → Except Err Value

/-- Custom tool handler `(args, req) => result`. -/
def ToolHandler : Type := Value → ReqInfo → Except Err Value

/-- Tool descriptor surfaced by `tools/list` (`name`, `description`,
`inputSchema`). -/
structure MCPTool where
  name : String
  description : String
  inputSchema : Value

/-- A registered route: HTTP `method`, `path` template, the `tool`
descriptor, and an optional custom `handler`. -/
structure RouteDefinition where
  method : String
  path : String
  tool : MCPTool
  handler : Option ToolHandler

/-- One top-level configuration entry: either a plain JSON-ish value or a
handler map (`resourceHandlers` / `promptHandlers`). -/
inductive ConfigVal where
  | plain (v : Value)
  | handlers (hs : List (String × Handler))

/-- The stored configuration: a JS object, modelled as an ordered
association list of top-level keys. -/
def MCPConfig : Type := List (String × ConfigVal)

/-- State of `MCPRegistryImpl`: the route `Map` (keyed `method:path`, in
insertion order) and the configuration object. -/
structure MCPRegistryImpl where
  routes : List (String × RouteDefinition)
  config : MCPConfig

namespace MCPRegistryImpl

/-- `configure(config)`: shallow spread-merge into the stored config. -/
def configure (st : MCPRegistryImpl) (c : MCPConfig) : MCPRegistryImpl :=
  { st with config := spreadMerge st.config c }

/-- The route key of a definition, `method:path`. -/
def routeKey (d : RouteDefinition) : String :=
  d.method ++ ":" ++ d.path

/-- `register(definition)`: `routes.set(key, definition)`. -/
def register (st : MCPRegistryImpl) (d : RouteDefinition) : MCPRegistryImpl :=
  { st with routes := mapSet st.routes (routeKey d) d }

/-- `getTools()`: the tool of every stored route, in iteration order. -/
def getTools (st : MCPRegistryImpl) : List MCPTool :=
  (st.routes.map (fun p => p.2)).map (fun rd => rd.tool)

/-- `getRoute(toolName)`: first stored route whose tool name equals the
argument, else `undefined` (modelled `none`). -/
def getRoute (st : MCPRegistryImpl) (toolName : String) : Option RouteDefinition :=
  (st.routes.map (fun p => p.2)).find? (fun rd => rd.tool.name == toolName)

/-- `getConfig()`. -/
def getConfig (st : MCPRegistryImpl) : MCPConfig :=
  st.config

/-- `clear()`: `routes.clear()`; the configuration is untouched. -/
def clear (st : MCPRegistryImpl) : MCPRegistryImpl :=
  { st with routes := [] }

/-- The `resourceHandlers` map of the stored config (empty when unset). -/
def resourceHandlers (st : MCPRegistryImpl) : List (String × Handler) :=
  match mapGet st.config "resourceHandlers" with
  | some (.handlers hs) => hs
  | _ => []

/-- The `promptHandlers` map of the stored config (empty when unset). -/
def promptHandlers (st : MCPRegistryImpl) : List (String × Handler) :=
  match mapGet st.config "promptHandlers" with
  | some (.handlers hs) => hs
  | _ => []

/-- `this.config.resources || []`, as a list of resource values. -/
def getResources (st : MCPRegistryImpl) : List Value :=
  match mapGet st.config "resources" with
  | some (.plain (.arr xs)) => xs
  | _ => []

/-- `this.config.prompts || []`. -/
def getPrompts (st : MCPRegistryImpl) : List Value :=
  match mapGet st.config "prompts" with
  | some (.plain (.arr xs)) => xs
  | _ => []

/-- String-valued config field with `||`-style default. -/
def cfgStr (st : MCPRegistryImpl) (k d : String) : String :=
  match mapGet st.config k with
  | some (.plain (.str s)) => if s == "" then d else s
  | _ => d

/-- `handleResourceRead(uri, params)`: look up `resourceHandlers[uri]`,
await it when present, else throw `No handler for resource: uri`. -/
def handleResourceRead (st : MCPRegistryImpl) (uri : String) (params : Value) : Except Err Value :=
  match mapGet (resourceHandlers st) uri with
  | some h => h params
  | none => .error ⟨"No handler for resource: " ++ uri⟩

/-- `handlePromptGet(name, args)`: symmetric over `promptHandlers`. -/
def handlePromptGet (st : MCPRegistryImpl) (name : String) (args : Value) : Except Err Value :=
  match mapGet (promptHandlers st) name with
  | some h => h args
  | none => .error ⟨"No handler for prompt: " ++ name⟩

end MCPRegistryImpl

/-! ## REST bridge (`callRESTEndpoint`) -/

/-- The outbound request handed to `fetch`: URL, HTTP method, headers and
optional body. -/
structure FetchRequest where
  url : String
  method : String
  headers : List (String × String)
  body : Option String

/-- What the middleware observes of a `fetch` response. -/
structure FetchResponse where
  ok : Bool
  status : Int
  contentType : String
  text : String
  json : Value

/-- Behaviour of the network: result of `fetch` on a request (an `Err`
models a rejected fetch). -/
def Network : Type := FetchRequest → Except Err FetchResponse

/-- Ambient execution context of the middleware: the originating request's
headers, `process.env.PORT`, and the network. -/
structure Ctx where
  req : ReqInfo
  envPort : Option String
  net : Network

/-- String `||`-default (JS falsy: absent or empty string). -/
def orDefault (o : Option String) (d : String) : String :=
  match o with
  | some s => if s == "" then d else s
  | none => d

/-- `Object.entries(v)` (and the own-property part of spread `\x7b...v\x7d`):
object entries in order, array and string entries under index keys,
primitives contribute nothing. -/
def jsEntries : Value → List (String × Value)
  | .obj kvs => kvs
  | .arr xs => xs.enum.map (fun p => (toString p.1, p.2))
  | .str s => s.data.enum.map (fun p => (toString p.1, .str (String.singleton p.2)))
  | _ => []

/-- Path-parameter substitution loop: for each key of `data` (an object),
replace the first occurrence of `:key` in the working path by the
stringified value. -/
def substPath (path : String) (data : Value) : String :=
  match data with
  | .obj kvs => kvs.foldl (fun acc p => replaceFirst acc (":" ++ p.1) (valueToString p.2)) path
  | .arr xs => (xs.enum.map (fun p => (toString p.1, p.2))).foldl
      (fun acc p => replaceFirst acc (":" ++ p.1) (valueToString p.2)) path
  | _ => path

/-- Base URL derived from the originating request:
`(x-forwarded-proto || 'http')://(host || localhost:(PORT || 3000))`. -/
def baseURLOf (req : ReqInfo) (envPort : Option String) : String :=
  orDefault req.xForwardedProto "http" ++ "://" ++
    orDefault req.host ("localhost:" ++ orDefault envPort "3000")

/-- The path after parameter substitution (applied only when the call
arguments are a truthy object). -/
def finalPathOf (rd : RouteDefinition) (data : Value) : String :=
  if jsTruthy data && jsIsObject data then substPath rd.path data else rd.path

/-- The URL and options built by `callRESTEndpoint` before `fetch` runs:
base URL from forwarded-proto/host headers, path substitution, then
verb-dependent body vs query-parameter placement. -/
def buildFetchRequest (req : ReqInfo) (envPort : Option String)
    (rd : RouteDefinition) (data : Value) : FetchRequest :=
  let url0 := baseURLOf req envPort ++ finalPathOf rd data
  let headers :=
    [("Content-Type", "application/json"), ("User-Agent", "MCP-Client/1.0")] ++
    (match req.authorization with
     | some a => if a == "" then [] else [("Authorization", a)]
     | none => [])
  if rd.method == "POST" || rd.method == "PUT" || rd.method == "PATCH" then
    let pks := pathParams rd.path.data
    let bodyData := (jsEntries data).filter (fun p => !(pks.contains p.1))
    ⟨url0, rd.method, headers, some (jsonC (.obj bodyData))⟩
  else if rd.method == "GET" && jsTruthy data then
    let qps := (jsEntries data).filter
      (fun p => isDefined p.2 && !(strContains rd.path (":" ++ p.1)))
    let queryString :=
      joinAmp (qps.map (fun p => formEncode p.1 ++ "=" ++ formEncode (valueToString p.2)))
    let url :=
      if queryString == "" then url0
      else url0 ++ (if strContains url0 "?" then "&" else "?") ++ queryString
    ⟨url, rd.method, headers, none⟩
  else
    ⟨url0, rd.method, headers, none⟩

/-- `callRESTEndpoint(req, routeDefinition, data)`: build the request, run
`fetch`, fail on non-ok status, and decode the body by content type. -/
def callRESTEndpoint (ctx : Ctx) (rd : RouteDefinition) (data : Value) : Except Err Value :=
  let fr := buildFetchRequest ctx.req ctx.envPort rd data
  match ctx.net fr with
  | .error e => .error e
  | .ok resp =>
    if !resp.ok then
      .error ⟨"HTTP " ++ toString resp.status ++ ": " ++ resp.text⟩
    else if strContains resp.contentType "application/json" then
      .ok resp.json
    else
      .ok (.str resp.text)

/-! ## Protocol dispatcher (`createMCPMiddleware` request handling) -/

/-- JSON-RPC error object `\x7bcode, message\x7d`. -/
structure MCPError where
  code : Int
  message : String

/-- JSON-RPC response envelope as the middleware emits it via `res.json`. -/
structure MCPResponse where
  jsonrpc : String
  id : Value
  result : Option Value
  error : Option MCPError

/-- What the transport observes from one dispatch: a JSON body, or the bare
`200 OK` acknowledgment (`res.status(200).end()`) used for notifications. -/
inductive MCPOut where
  | jsonBody (r : MCPResponse)
  | ack

/-- Success envelope. -/
def mkResult (id : Value) (v : Value) : MCPResponse :=
  ⟨"2.0", id, some v, none⟩

/-- `sendMCPError(res, id, code, message)`. -/
def mkError (id : Value) (code : Int) (message : String) : MCPResponse :=
  ⟨"2.0", id, none, some ⟨code, message⟩⟩

/-- Property access `v[k]` on a value already known non-nullish (`undefined`
for absent keys or non-object bases). -/
def getProp (v : Value) (k : String) : Value :=
  match v with
  | .obj kvs => (mapGet kvs k).getD .undefined
  | _ => .undefined

/-- Property access that can throw: reading `body.method` on a nullish
`req.body` raises a TypeError. -/
def getFieldE : Value → String → Except Err Value
  | .undefined, _ => .error ⟨"Cannot read properties of undefined"⟩
  | .null, _ => .error ⟨"Cannot read properties of null"⟩
  | .obj kvs, k => .ok ((mapGet kvs k).getD .undefined)
  | _, _ => .ok .undefined

/-- Calling `.startsWith` on the method field throws unless it is a
string. -/
def asMethod : Value → Except Err String
  | .str s => .ok s
  | _ => .error ⟨"mcpRequest.method.startsWith is not a function"⟩

/-- Destructuring `const \x7b name \x7d = v` throws on nullish `v` and
otherwise yields the base value for property reads. -/
def destructureE : Value → Except Err Value
  | .undefined => .error ⟨"Cannot destructure property of undefined"⟩
  | .null => .error ⟨"Cannot destructure property of null"⟩
  | v => .ok v

/-- `error.message || fallback`. -/
def errMsgOr (e : Err) (d : String) : String :=
  if e.message == "" then d else e.message

/-- `typeof x === 'string' ? x : JSON.stringify(x, null, 2)`. -/
def textOf (v : Value) : String :=
  match v with
  | .str s => s
  | v => jsonP "" v

/-- The `result` payload wrapping a tool outcome:
`\x7bcontent: [\x7btype: 'text', text\x7d]\x7d`. -/
def toolResultValue (v : Value) : Value :=
  .obj [("content", .arr [.obj [("type", .str "text"), ("text", .str (textOf v))]])]

/-- Tool descriptor as serialized into `tools/list`. -/
def toolToValue (t : MCPTool) : Value :=
  .obj [("name", .str t.name), ("description", .str t.description),
        ("inputSchema", t.inputSchema)]

/-- `handleInitialize`: capabilities from the current config (resources and
prompts advertised only when non-empty), server info with defaults. -/
def handleInitialize (st : MCPRegistryImpl) (rid : Value) : MCPResponse :=
  mkResult rid (.obj [
    ("protocolVersion", .str "2025-06-18"),
    ("capabilities", .obj [
      ("tools", .obj []),
      ("resources", if (MCPRegistryImpl.getResources st).isEmpty then .undefined else .obj []),
      ("prompts", if (MCPRegistryImpl.getPrompts st).isEmpty then .undefined else .obj [])]),
    ("serverInfo", .obj [
      ("name", .str (MCPRegistryImpl.cfgStr st "serverName" "express-mcp-server")),
      ("version", .str (MCPRegistryImpl.cfgStr st "serverVersion" "1.0.0"))])])

/-- `handleToolsList`. -/
def handleToolsList (st : MCPRegistryImpl) (rid : Value) : MCPResponse :=
  mkResult rid (.obj [("tools", .arr ((MCPRegistryImpl.getTools st).map toolToValue))])

/-- `handleResourcesList`. -/
def handleResourcesList (st : MCPRegistryImpl) (rid : Value) : MCPResponse :=
  mkResult rid (.obj [("resources", .arr (MCPRegistryImpl.getResources st))])

/-- `handlePromptsList`. -/
def handlePromptsList (st : MCPRegistryImpl) (rid : Value) : MCPResponse :=
  mkResult rid (.obj [("prompts", .arr (MCPRegistryImpl.getPrompts st))])

/-- Route lookup by the raw `params.name` value: strict `===` comparison
against the stored string names, so any non-string name matches nothing. -/
def jsGetRoute (st : MCPRegistryImpl) (v : Value) : Option RouteDefinition :=
  match v with
  | .str s => MCPRegistryImpl.getRoute st s
  | _ => none

/-- Execution of a resolved tool: the custom handler when present,
otherwise the REST bridge. -/
def runTool (ctx : Ctx) (rd : RouteDefinition) (args : Value) : Except Err Value :=
  match rd.handler with
  | some h => h args ctx.req
  | none => callRESTEndpoint ctx rd args

/-- `handleToolCall`: destructure `params`, resolve the route by tool name,
run the custom handler or the REST bridge, and wrap result or error. The
destructuring throw escapes; everything after it is caught locally. -/
def handleToolCall (ctx : Ctx) (st : MCPRegistryImpl) (body : Value) : Except Err MCPOut :=
  match destructureE (getProp body "params") with
  | .error e => .error e
  | .ok params =>
    let nameV := getProp params "name"
    let argsV := getProp params "arguments"
    let rid := getProp body "id"
    match jsGetRoute st nameV with
    | none =>
      let availableTools := joinComma ((MCPRegistryImpl.getTools st).map (fun t => t.name))
      .ok (.jsonBody (mkError rid (-32602)
        ("Unknown tool: " ++ valueToString nameV ++ ". Available tools: " ++ availableTools)))
    | some rd =>
      match runTool ctx rd argsV with
      | .ok result => .ok (.jsonBody (mkResult rid (toolResultValue result)))
      | .error e => .ok (.jsonBody (mkError rid (-32603) (errMsgOr e "Tool execution failed")))

/-- Module-level `handleResourceRead`: destructure `uri`, delegate to the
registry, wrap the content or convert the throw to `-32603`. -/
def handleResourceRead (st : MCPRegistryImpl) (body : Value) : Except Err MCPOut :=
  match destructureE (getProp body "params") with
  | .error e => .error e
  | .ok params =>
    let uriV := getProp params "uri"
    let rid := getProp body "id"
    match MCPRegistryImpl.handleResourceRead st (valueToString uriV) params with
    | .ok content =>
      .ok (.jsonBody (mkResult rid (.obj [("contents", .arr [.obj [
        ("uri", uriV),
        ("mimeType", .str "application/json"),
        ("text", .str (textOf content))]])])))
    | .error e => .ok (.jsonBody (mkError rid (-32603) (errMsgOr e "Resource read failed")))

/-- Module-level `handlePromptsGet`. -/
def handlePromptsGet (st : MCPRegistryImpl) (body : Value) : Except Err MCPOut :=
  match destructureE (getProp body "params") with
  | .error e => .error e
  | .ok params =>
    let nameV := getProp params "name"
    let rid := getProp body "id"
    let argsV := if jsTruthy (getProp params "arguments") then getProp params "arguments" else .obj []
    match MCPRegistryImpl.handlePromptGet st (valueToString nameV) argsV with
    | .ok content =>
      .ok (.jsonBody (mkResult rid (.obj [("messages", .arr [.obj [
        ("role", .str "user"),
        ("content", .obj [("type", .str "text"), ("text", .str (textOf content))])]])])))
    | .error e => .ok (.jsonBody (mkError rid (-32603) (errMsgOr e "Prompt get failed")))

/-- `handleNotification`: every `notifications/*` method, recognized or
not, only logs and answers `res.status(200).end()` — no JSON-RPC body. -/
def handleNotification (_body : Value) : MCPOut :=
  .ack

/-- What the transport ultimately observes from one middleware invocation:
a response was sent, or an async handler's rejected promise escaped — the
middleware's synchronous `try/catch` never observes it, and no response is
produced at all. -/
inductive TransportOutcome where
  | sent (o : MCPOut)
  | unhandledRejection (e : Err)

/-- The promise an async handler returns, as the transport sees it: on
fulfillment the handler has already sent its response; on rejection
nothing was sent and nothing catches it. -/
def promiseOutcome : Except Err MCPOut → TransportOutcome
  | .ok o => .sent o
  | .error e => .unhandledRejection e

/-- The body of the middleware's `try` block, for a request that passed the
path/verb check: read `method`, route notifications first, then switch on
the method name.  An `Err` result is an exception thrown synchronously in
the middleware body itself (nullish `req.body`, non-string `method`),
which the top-level catch converts.  The async handlers (`tools/call`,
`resources/read`, `prompts/get`) are only *called* here — their returned
promise is passed through `promiseOutcome`, so their pre-`try` destructure
throws never reach the catch. -/
def dispatchCore (ctx : Ctx) (st : MCPRegistryImpl) (body : Value) : Except Err TransportOutcome :=
  match getFieldE body "method" with
  | .error e => .error e
  | .ok mv =>
    match asMethod mv with
    | .error e => .error e
    | .ok method =>
      if method.startsWith "notifications/" then
        .ok (.sent (handleNotification body))
      else
        let rid := getProp body "id"
        match method with
        | "initialize" => .ok (.sent (.jsonBody (handleInitialize st rid)))
        | "tools/list" => .ok (.sent (.jsonBody (handleToolsList st rid)))
        | "tools/call" => .ok (promiseOutcome (handleToolCall ctx st body))
        | "resources/list" => .ok (.sent (.jsonBody (handleResourcesList st rid)))
        | "resources/read" => .ok (promiseOutcome (handleResourceRead st body))
        | "prompts/list" => .ok (.sent (.jsonBody (handlePromptsList st rid)))
        | "prompts/get" => .ok (promiseOutcome (handlePromptsGet st body))
        | _ => .ok (.sent (.jsonBody (mkError rid (-32601) ("Method not found: " ++ method))))

/-- The full middleware dispatch for an accepted request: the `try` body
with the synchronous top-level catch converting a synchronously escaped
exception into `-32603` `Internal error` carrying id `0`.  A rejection of
an async handler's promise is *not* caught here and yields no response. -/
def dispatch (ctx : Ctx) (st : MCPRegistryImpl) (body : Value) : TransportOutcome :=
  match dispatchCore ctx st body with
  | .ok out => out
  | .error _ => .sent (.jsonBody (mkError (.num 0) (-32603) "Internal error"))

/-- A well-formed JSON-RPC response: version tag plus exactly one of
`result` / `error`. -/
def wellFormed (r : MCPResponse) : Prop :=
  r.jsonrpc = "2.0" ∧
    ((r.result.isSome = true ∧ r.error = none) ∨ (r.result = none ∧ r.error.isSome = true))

/-- Whether a body is a notification request: its `method` field is a
string starting with `notifications/`. -/
def isNotificationReq (body : Value) : Bool :=
  match getFieldE body "method" with
  | .ok (.str m) => m.startsWith "notifications/"
  | _ => false

/-! ## Concrete fixtures used by witnesses and counterexamples -/

/-- A network that always answers `200 OK` with plain-text `hello`. -/
def exNetOk : Network := fun _ => .ok ⟨true, 200, "text/plain", "hello", .null⟩

/-- A network whose fetch always rejects. -/
def exNetErr : Network := fun _ => .error ⟨"fetch failed"⟩

/-- Originating request fixture: host header only. -/
def exReq : ReqInfo := ⟨none, some "api.example.com", none⟩

/-- Context fixture over the ok-network. -/
def exCtx : Ctx := ⟨exReq, none, exNetOk⟩

/-- Context fixture over the rejecting network. -/
def exCtxErr : Ctx := ⟨exReq, none, exNetErr⟩

/-- The registry before any registration or configuration. -/
def emptyRegistry : MCPRegistryImpl := ⟨[], []⟩

/-- A `tools/call` request body carrying no `params` field: its destructure
inside the async handler throws before the handler's own `try`. -/
def exNoParamsBody : Value :=
  .obj [("jsonrpc", .str "2.0"), ("id", .num 7), ("method", .str "tools/call")]

/-- A `tools/call` request body with the given id and params entries. -/
def toolCallBody (idv : Value) (pkvs : List (String × Value)) : Value :=
  .obj [("jsonrpc", .str "2.0"), ("id", idv),
        ("method", .str "tools/call"), ("params", .obj pkvs)]

/-- A `resources/read` request body with the given id and params entries. -/
def resReadBody (idv : Value) (pkvs : List (String × Value)) : Value :=
  .obj [("jsonrpc", .str "2.0"), ("id", idv),
        ("method", .str "resources/read"), ("params", .obj pkvs)]

/-! ## Helper lemmas -/

theorem strData_append (a b : String) : (a ++ b).data = a.data ++ b.data := by
  cases a; cases b; rfl

theorem strMk_data (s : String) : String.mk s.data = s := by
  cases s; rfl

theorem mapGet_nil (k : String) : mapGet ([] : List (String × α)) k = none := rfl

theorem mapGet_cons (p : String × α) (rest : List (String × α)) (k : String) :
    mapGet (p :: rest) k = if p.1 == k then some p.2 else mapGet rest k := by
  simp only [mapGet, List.find?]
  cases h : (p.1 == k) <;> simp [h]

theorem mapGet_append (l₁ l₂ : List (String × α)) (k : String) :
    mapGet (l₁ ++ l₂) k = (mapGet l₁ k).or (mapGet l₂ k) := by
  induction l₁ with
  | nil => simp [mapGet_nil]
  | cons p rest ih =>
    rw [List.cons_append, mapGet_cons, mapGet_cons]
    by_cases hp : p.1 == k <;> simp [hp, ih]

theorem mapGet_spread_map (old nw : List (String × α)) (k : String) :
    mapGet (old.map (fun p => match mapGet nw p.1 with
      | some v => (p.1, v)
      | none => p)) k =
      (mapGet old k).map (fun w => (mapGet nw k).getD w) := by
  induction old with
  | nil => simp [mapGet_nil]
  | cons p rest ih =>
    rw [List.map_cons]
    by_cases hp : p.1 = k
    · subst hp
      cases h : mapGet nw p.1 <;> simp [h, mapGet_cons]
    · have hp' : (p.1 == k) = false := by simp [hp]
      have hkey : (match mapGet nw p.1 with
          | some v => (p.1, v)
          | none => p).1 = p.1 := by
        cases h : mapGet nw p.1 <;> simp
      rw [mapGet_cons, mapGet_cons, hkey, hp', if_neg (by simp), if_neg (by simp [hp]), ih]

theorem mapGet_spread_filter (old nw : List (String × α)) (k : String) :
    mapGet (nw.filter (fun p => (mapGet old p.1).isNone)) k =
      if (mapGet old k).isNone then mapGet nw k else none := by
  induction nw with
  | nil => simp [mapGet_nil]
  | cons q rest ih =>
    rw [List.filter_cons]
    by_cases hq : q.1 = k
    · subst hq
      cases h : mapGet old q.1 <;> simp [h, mapGet_cons, ih]
    · have hq' : (q.1 == k) = false := by simp [hq]
      cases h : mapGet old q.1 <;> simp [h, mapGet_cons, hq', ih]

theorem mapGet_spreadMerge (old nw : List (String × α)) (k : String) :
    mapGet (spreadMerge old nw) k = (mapGet nw k).or (mapGet old k) := by
  unfold spreadMerge
  rw [mapGet_append, mapGet_spread_map, mapGet_spread_filter]
  cases hn : mapGet nw k <;> cases ho : mapGet old k <;> simp [hn, ho]

/-! ## Claim theorems -/

/-- C3: `clear()` empties the route store — `getTools()` becomes the empty
sequence — while `getConfig()` returns exactly the configuration stored
before the call; nothing besides the route definitions changes. -/
theorem C3_clear_removes_routes_keeps_config (st : MCPRegistryImpl) :
    MCPRegistryImpl.getTools (MCPRegistryImpl.clear st) = [] ∧
    MCPRegistryImpl.getConfig (MCPRegistryImpl.clear st) = MCPRegistryImpl.getConfig st ∧
    (MCPRegistryImpl.clear st).routes = [] := by
  refine ⟨rfl, rfl, rfl⟩

/-- C5: `configure` is a shallow merge — every top-level key of the new
config wholly replaces the stored value at that key (nested maps such as
`resourceHandlers` included), keys absent from the new config keep their
stored values; concretely, `configure(\x7ba: 1\x7d)` then
`configure(\x7bb: 2\x7d)` stores both, and a later `configure(\x7ba: 3\x7d)`
overwrites `a` without disturbing `b`. -/
theorem C5_configure_shallow_merge :
    (∀ (st : MCPRegistryImpl) (c : MCPConfig) (k : String),
      mapGet (MCPRegistryImpl.getConfig (MCPRegistryImpl.configure st c)) k =
        (mapGet c k).or (mapGet (MCPRegistryImpl.getConfig st) k)) ∧
    (let st1 := MCPRegistryImpl.configure emptyRegistry [("a", .plain (.num 1))]
     let st2 := MCPRegistryImpl.configure st1 [("b", .plain (.num 2))]
     let st3 := MCPRegistryImpl.configure st2 [("a", .plain (.num 3))]
     mapGet (MCPRegistryImpl.getConfig st2) "a" = some (.plain (.num 1)) ∧
     mapGet (MCPRegistryImpl.getConfig st2) "b" = some (.plain (.num 2)) ∧
     mapGet (MCPRegistryImpl.getConfig st3) "a" = some (.plain (.num 3)) ∧
     mapGet (MCPRegistryImpl.getConfig st3) "b" = some (.plain (.num 2))) ∧
    (∀ (st : MCPRegistryImpl) (hs : List (String × Handler)),
      mapGet (MCPRegistryImpl.getConfig
          (MCPRegistryImpl.configure st [("resourceHandlers", .handlers hs)]))
        "resourceHandlers" = some (.handlers hs)) := by
  refine ⟨?_, ⟨rfl, rfl, rfl, rfl⟩, ?_⟩
  · intro st c k
    simp only [MCPRegistryImpl.configure, MCPRegistryImpl.getConfig]
    exact mapGet_spreadMerge st.config c k
  · intro st hs
    simp only [MCPRegistryImpl.configure, MCPRegistryImpl.getConfig]
    rw [mapGet_spreadMerge]
    rfl

theorem mapSet_mapSet (m : List (String × α)) (k : String) (v₁ v₂ : α) :
    mapSet (mapSet m k v₁) k v₂ = mapSet m k v₂ := by
  induction m with
  | nil => simp [mapSet]
  | cons p rest ih =>
    by_cases hp : (p.1 == k) = true <;> simp [mapSet, hp, ih]

theorem find?_first_match (pre : List (String × RouteDefinition))
    (p : String × RouteDefinition) (post : List (String × RouteDefinition)) (n : String)
    (hpre : ∀ q ∈ pre, q.2.tool.name ≠ n) (hp : p.2.tool.name = n) :
    ((pre ++ p :: post).map (fun q => q.2)).find? (fun rd => rd.tool.name == n) = some p.2 := by
  induction pre with
  | nil => simp [List.find?, hp]
  | cons q rest ih =>
    have hq : q.2.tool.name ≠ n := hpre q (by simp)
    have hbe : (q.2.tool.name == n) = false := by simp [hq]
    simp only [List.cons_append, List.map_cons, List.find?, hbe]
    exact ih (fun q' hq' => hpre q' (by simp [hq']))

theorem getRoute_mapSet (rs : List (String × RouteDefinition)) (k : String) (d : RouteDefinition)
    (H : ∀ p ∈ rs.takeWhile (fun p => !(p.1 == k)), p.2.tool.name ≠ d.tool.name) :
    ((mapSet rs k d).map (fun p => p.2)).find? (fun rd => rd.tool.name == d.tool.name) = some d := by
  induction rs with
  | nil => simp [mapSet, List.find?]
  | cons p rest ih =>
    by_cases hp : p.1 == k
    · simp [mapSet, hp, List.find?]
    · have hmem : p ∈ (p :: rest).takeWhile (fun p => !(p.1 == k)) := by
        simp [List.takeWhile_cons, hp]
      have hne : p.2.tool.name ≠ d.tool.name := H p hmem
      have hbe : (p.2.tool.name == d.tool.name) = false := by simp [hne]
      have Hrest : ∀ q ∈ rest.takeWhile (fun p => !(p.1 == k)), q.2.tool.name ≠ d.tool.name := by
        intro q hq
        exact H q (by simp [List.takeWhile_cons, hp, hq])
      simp only [mapSet, hp, Bool.false_eq_true, if_false, List.map_cons, List.find?, hbe]
      exact ih Hrest

/-- C4: `register` followed by `getRoute` on the definition's tool name
returns that definition, provided no route earlier in iteration order
carries the same tool name; registering a second definition at the same
`(method, path)` key replaces the first; with duplicate tool names,
`getRoute` returns the first match in iteration order; an unknown name
yields the not-found sentinel `none`. -/
theorem C4_register_getRoute_semantics :
    (∀ (st : MCPRegistryImpl) (d : RouteDefinition),
      (∀ p ∈ st.routes.takeWhile (fun p => !(p.1 == MCPRegistryImpl.routeKey d)),
        p.2.tool.name ≠ d.tool.name) →
      MCPRegistryImpl.getRoute (MCPRegistryImpl.register st d) d.tool.name = some d) ∧
    (∀ (st : MCPRegistryImpl) (d₁ d₂ : RouteDefinition),
      MCPRegistryImpl.routeKey d₁ = MCPRegistryImpl.routeKey d₂ →
      MCPRegistryImpl.register (MCPRegistryImpl.register st d₁) d₂ =
        MCPRegistryImpl.register st d₂) ∧
    (∀ (st : MCPRegistryImpl) (n : String) (pre : List (String × RouteDefinition))
        (p : String × RouteDefinition) (post : List (String × RouteDefinition)),
      st.routes = pre ++ p :: post →
      (∀ q ∈ pre, q.2.tool.name ≠ n) →
      p.2.tool.name = n →
      MCPRegistryImpl.getRoute st n = some p.2) ∧
    (∀ (st : MCPRegistryImpl) (n : String),
      (∀ q ∈ st.routes, q.2.tool.name ≠ n) →
      MCPRegistryImpl.getRoute st n = none) := by
  refine ⟨?_, ?_, ?_, ?_⟩
  · intro st d H
    exact getRoute_mapSet st.routes (MCPRegistryImpl.routeKey d) d H
  · intro st d₁ d₂ hk
    simp only [MCPRegistryImpl.register]
    rw [← hk, mapSet_mapSet, hk]
  · intro st n pre p post hroutes hpre hp
    rw [MCPRegistryImpl.getRoute, hroutes]
    exact find?_first_match pre p post n hpre hp
  · intro st n H
    rw [MCPRegistryImpl.getRoute, List.find?_eq_none]
    intro rd hrd
    obtain ⟨p, hp, rfl⟩ := List.mem_map.mp hrd
    simp [H p hp]

/-- C4 witness: concrete register/lookup scenarios — retrieval after
registration, silent replacement at an identical route key, first-match
semantics for a duplicated tool name, and the unknown-name sentinel. -/
theorem C4_register_getRoute_semantics_witness :
    MCPRegistryImpl.getRoute
        (MCPRegistryImpl.register emptyRegistry ⟨"GET", "/a", ⟨"alpha", "da", .obj []⟩, none⟩)
        "alpha" = some ⟨"GET", "/a", ⟨"alpha", "da", .obj []⟩, none⟩ ∧
    MCPRegistryImpl.register
        (MCPRegistryImpl.register emptyRegistry ⟨"GET", "/a", ⟨"alpha", "da", .obj []⟩, none⟩)
        ⟨"GET", "/a", ⟨"beta", "db", .obj []⟩, none⟩ =
      MCPRegistryImpl.register emptyRegistry ⟨"GET", "/a", ⟨"beta", "db", .obj []⟩, none⟩ ∧
    MCPRegistryImpl.getRoute
        ⟨[("GET:/a", ⟨"GET", "/a", ⟨"dup", "d1", .obj []⟩, none⟩),
          ("GET:/b", ⟨"GET", "/b", ⟨"dup", "d2", .obj []⟩, none⟩)], []⟩
        "dup" = some ⟨"GET", "/a", ⟨"dup", "d1", .obj []⟩, none⟩ ∧
    MCPRegistryImpl.getRoute emptyRegistry "nope" = none := by
  refine ⟨?_, ?_, ?_, ?_⟩
  · exact C4_register_getRoute_semantics.1 emptyRegistry
      ⟨"GET", "/a", ⟨"alpha", "da", .obj []⟩, none⟩ (by simp [emptyRegistry])
  · exact C4_register_getRoute_semantics.2.1 emptyRegistry
      ⟨"GET", "/a", ⟨"alpha", "da", .obj []⟩, none⟩
      ⟨"GET", "/a", ⟨"beta", "db", .obj []⟩, none⟩ rfl
  · exact C4_register_getRoute_semantics.2.2.1
      ⟨[("GET:/a", ⟨"GET", "/a", ⟨"dup", "d1", .obj []⟩, none⟩),
        ("GET:/b", ⟨"GET", "/b", ⟨"dup", "d2", .obj []⟩, none⟩)], []⟩
      "dup" [] ("GET:/a", ⟨"GET", "/a", ⟨"dup", "d1", .obj []⟩, none⟩)
      [("GET:/b", ⟨"GET", "/b", ⟨"dup", "d2", .obj []⟩, none⟩)]
      rfl (by simp) rfl
  · exact C4_register_getRoute_semantics.2.2.2 emptyRegistry "nope" (by simp [emptyRegistry])

theorem listReplaceFirst_of_not_contains (s pat rep : List Char)
    (h : listContains s pat = false) : listReplaceFirst s pat rep = s := by
  induction s with
  | nil =>
    simp only [listContains] at h
    simp [listReplaceFirst, h]
  | cons c cs ih =>
    simp only [listContains, Bool.or_eq_false_iff] at h
    simp [listReplaceFirst, h.1, ih h.2]

theorem replaceFirst_of_not_contains (s pat rep : String)
    (h : strContains s pat = false) : replaceFirst s pat rep = s := by
  rw [replaceFirst, listReplaceFirst_of_not_contains s.data pat.data rep.data h, strMk_data]

theorem substPath_of_no_token (path : String) (kvs : List (String × Value))
    (H : ∀ p ∈ kvs, strContains path (":" ++ p.1) = false) :
    substPath path (.obj kvs) = path := by
  induction kvs with
  | nil => rfl
  | cons p rest ih =>
    have h1 : replaceFirst path (":" ++ p.1) (valueToString p.2) = path :=
      replaceFirst_of_not_contains _ _ _ (H p (by simp))
    calc substPath path (.obj (p :: rest))
        = substPath (replaceFirst path (":" ++ p.1) (valueToString p.2)) (.obj rest) := rfl
      _ = substPath path (.obj rest) := by rw [h1]
      _ = path := ih (fun q hq => H q (by simp [hq]))

/-- C10: the bridge performs no validation of path placeholders — a
`:name` token with no matching argument key is left verbatim in the
outbound URL and the call still proceeds to the network; each supplied key
replaces only the first occurrence of its `:key` token. -/
theorem C10_path_substitution_lenient :
    (∀ (s pat rep : String), strContains s pat = false → replaceFirst s pat rep = s) ∧
    (∀ (path : String) (kvs : List (String × Value)),
      (∀ p ∈ kvs, strContains path (":" ++ p.1) = false) →
      substPath path (.obj kvs) = path) ∧
    substPath "/a/:id/b/:id" (.obj [("id", .str "42")]) = "/a/42/b/:id" ∧
    (buildFetchRequest exReq none ⟨"GET", "/items/:id", ⟨"get_item", "d", .obj []⟩, none⟩
        (.obj [("q", .str "1")])).url = "http://api.example.com/items/:id?q=1" ∧
    strContains (buildFetchRequest exReq none
        ⟨"GET", "/items/:id", ⟨"get_item", "d", .obj []⟩, none⟩
        (.obj [("q", .str "1")])).url ":id" = true ∧
    callRESTEndpoint exCtx ⟨"GET", "/items/:id", ⟨"get_item", "d", .obj []⟩, none⟩
        (.obj [("q", .str "1")]) = .ok (.str "hello") := by
  refine ⟨replaceFirst_of_not_contains, substPath_of_no_token, ?_, ?_, ?_, ?_⟩ <;>
    with_unfolding_all rfl

/-- C10 witness: the two universally quantified parts applied at concrete
inputs, hypotheses discharged by computation. -/
theorem C10_path_substitution_lenient_witness :
    replaceFirst "/items/:id" ":zz" "7" = "/items/:id" ∧
    substPath "/items/:id" (.obj [("q", .str "1")]) = "/items/:id" := by
  refine ⟨C10_path_substitution_lenient.1 "/items/:id" ":zz" "7"
    (by with_unfolding_all rfl), ?_⟩
  exact C10_path_substitution_lenient.2.1 "/items/:id" [("q", .str "1")]
    (by intro p hp
        simp only [List.mem_singleton] at hp
        subst hp
        with_unfolding_all rfl)

/-- C2 counterexample: a `DELETE` route (a verb not listed as
body-bearing) called with a defined non-path argument `verbose` sends
neither a body nor any query parameter — the claim's "any verb not listed
as body-bearing gets query parameters" clause is false on the code. -/
theorem C2_counterexample :
    isDefined (.bool true) = true ∧
    strContains "/items/:id" ":verbose" = false ∧
    (buildFetchRequest exReq none ⟨"DELETE", "/items/:id", ⟨"delete_item", "dd", .obj []⟩, none⟩
      (.obj [("id", .str "42"), ("verbose", .bool true)])).url = "http://api.example.com/items/42" ∧
    (buildFetchRequest exReq none ⟨"DELETE", "/items/:id", ⟨"delete_item", "dd", .obj []⟩, none⟩
      (.obj [("id", .str "42"), ("verbose", .bool true)])).body = none ∧
    strContains (buildFetchRequest exReq none
      ⟨"DELETE", "/items/:id", ⟨"delete_item", "dd", .obj []⟩, none⟩
      (.obj [("id", .str "42"), ("verbose", .bool true)])).url "verbose" = false := by
  refine ⟨rfl, ?_, ?_, ?_, ?_⟩ <;> with_unfolding_all rfl

/-- C2 (amended): argument placement is decided by the HTTP verb —
`POST`/`PUT`/`PATCH` send the arguments minus path-template keys as a JSON
body with no query appending; query parameters are built only for `GET`
(defined arguments whose `:key` substring does not occur in the path
template, appended after `&` when the URL already contains `?`); any other
verb sends neither body nor query parameters; the
`Content-Type: application/json` header is set in every case. -/
theorem C2_verb_placement :
    (∀ (req : ReqInfo) (ep : Option String) (rd : RouteDefinition) (data : Value),
      mapGet (buildFetchRequest req ep rd data).headers "Content-Type" =
        some "application/json") ∧
    (∀ (req : ReqInfo) (ep : Option String) (rd : RouteDefinition) (data : Value),
      rd.method = "POST" ∨ rd.method = "PUT" ∨ rd.method = "PATCH" →
      (buildFetchRequest req ep rd data).body =
        some (jsonC (.obj ((jsEntries data).filter
          (fun p => !((pathParams rd.path.data).contains p.1))))) ∧
      (buildFetchRequest req ep rd data).url = baseURLOf req ep ++ finalPathOf rd data) ∧
    (∀ (req : ReqInfo) (ep : Option String) (rd : RouteDefinition) (data : Value),
      rd.method = "GET" → (buildFetchRequest req ep rd data).body = none) ∧
    (∀ (req : ReqInfo) (ep : Option String) (rd : RouteDefinition) (data : Value),
      rd.method ≠ "POST" → rd.method ≠ "PUT" → rd.method ≠ "PATCH" → rd.method ≠ "GET" →
      (buildFetchRequest req ep rd data).body = none ∧
      (buildFetchRequest req ep rd data).url = baseURLOf req ep ++ finalPathOf rd data) ∧
    ((buildFetchRequest exReq none ⟨"GET", "/items/:id", ⟨"get_item", "d", .obj []⟩, none⟩
        (.obj [("id", .str "42"), ("verbose", .bool true)])).url =
      "http://api.example.com/items/42?verbose=true" ∧
     (buildFetchRequest exReq none ⟨"GET", "/items/:id", ⟨"get_item", "d", .obj []⟩, none⟩
        (.obj [("id", .str "42"), ("verbose", .bool true)])).body = none) ∧
    ((buildFetchRequest exReq none ⟨"POST", "/items/:id", ⟨"make_item", "d", .obj []⟩, none⟩
        (.obj [("id", .str "42"), ("name", .str "widget")])).url =
      "http://api.example.com/items/42" ∧
     (buildFetchRequest exReq none ⟨"POST", "/items/:id", ⟨"make_item", "d", .obj []⟩, none⟩
        (.obj [("id", .str "42"), ("name", .str "widget")])).body =
      some "\x7b\"name\":\"widget\"\x7d") ∧
    (buildFetchRequest exReq none ⟨"GET", "/s?x=1", ⟨"s", "d", .obj []⟩, none⟩
        (.obj [("q", .str "1")])).url = "http://api.example.com/s?x=1&q=1" := by
  refine ⟨?_, ?_, ?_, ?_, ⟨?_, ?_⟩, ⟨?_, ?_⟩, ?_⟩
  case refine_5 => with_unfolding_all rfl
  case refine_6 => with_unfolding_all rfl
  case refine_7 => with_unfolding_all rfl
  case refine_8 => with_unfolding_all rfl
  case refine_9 => with_unfolding_all rfl
  · intro req ep rd data
    unfold buildFetchRequest
    repeat' split
    all_goals rw [List.cons_append, mapGet_cons]
    all_goals simp
  · intro req ep rd data hm
    have hb : (rd.method == "POST" || rd.method == "PUT" || rd.method == "PATCH") = true := by
      rcases hm with h | h | h <;> simp [h]
    unfold buildFetchRequest
    rw [hb]
    exact ⟨rfl, rfl⟩
  · intro req ep rd data hm
    have hb : (rd.method == "POST" || rd.method == "PUT" || rd.method == "PATCH") = false := by
      simp [hm]
    unfold buildFetchRequest
    rw [hb]
    simp only [Bool.false_eq_true, if_false]
    split <;> rfl
  · intro req ep rd data h1 h2 h3 h4
    have hb : (rd.method == "POST" || rd.method == "PUT" || rd.method == "PATCH") = false := by
      simp [h1, h2, h3]
    have hg : (rd.method == "GET") = false := by simp [h4]
    unfold buildFetchRequest
    rw [hb, hg]
    simp only [Bool.false_eq_true, if_false, Bool.false_and]
    exact ⟨trivial, trivial⟩

/-- C2 witness: the verb-placement clauses applied at concrete routes —
a `POST` body with the path key stripped, a `GET` with no body, and a
`DELETE` with neither body nor query. -/
theorem C2_verb_placement_witness :
    mapGet (buildFetchRequest exReq none
      ⟨"DELETE", "/x", ⟨"dx", "d", .obj []⟩, none⟩ .undefined).headers "Content-Type" =
      some "application/json" ∧
    (buildFetchRequest exReq none ⟨"POST", "/items/:id", ⟨"make_item", "d", .obj []⟩, none⟩
      (.obj [("id", .str "42"), ("name", .str "widget")])).body =
      some (jsonC (.obj ((jsEntries (.obj [("id", .str "42"), ("name", .str "widget")])).filter
        (fun p => !((pathParams "/items/:id".data).contains p.1))))) ∧
    (buildFetchRequest exReq none ⟨"GET", "/items/:id", ⟨"get_item", "d", .obj []⟩, none⟩
      (.obj [("id", .str "42"), ("verbose", .bool true)])).body = none ∧
    (buildFetchRequest exReq none ⟨"DELETE", "/items/:id", ⟨"delete_item", "dd", .obj []⟩, none⟩
      (.obj [("id", .str "42"), ("verbose", .bool true)])).body = none := by
  refine ⟨C2_verb_placement.1 exReq none _ _, ?_, ?_, ?_⟩
  · exact (C2_verb_placement.2.1 exReq none
      ⟨"POST", "/items/:id", ⟨"make_item", "d", .obj []⟩, none⟩
      (.obj [("id", .str "42"), ("name", .str "widget")]) (Or.inl rfl)).1
  · exact C2_verb_placement.2.2.1 exReq none
      ⟨"GET", "/items/:id", ⟨"get_item", "d", .obj []⟩, none⟩
      (.obj [("id", .str "42"), ("verbose", .bool true)]) rfl
  · exact (C2_verb_placement.2.2.2.1 exReq none
      ⟨"DELETE", "/items/:id", ⟨"delete_item", "dd", .obj []⟩, none⟩
      (.obj [("id", .str "42"), ("verbose", .bool true)])
      (by decide) (by decide) (by decide) (by decide)).1

theorem dispatchCore_toolsCall (ctx : Ctx) (st : MCPRegistryImpl) (body : Value)
    (h : getFieldE body "method" = .ok (.str "tools/call")) :
    dispatchCore ctx st body = .ok (promiseOutcome (handleToolCall ctx st body)) := by
  unfold dispatchCore
  rw [h]
  with_unfolding_all rfl

theorem dispatchCore_resourcesRead (ctx : Ctx) (st : MCPRegistryImpl) (body : Value)
    (h : getFieldE body "method" = .ok (.str "resources/read")) :
    dispatchCore ctx st body = .ok (promiseOutcome (handleResourceRead st body)) := by
  unfold dispatchCore
  rw [h]
  with_unfolding_all rfl

theorem getRoute_eq_none (st : MCPRegistryImpl) (n : String)
    (H : ∀ q ∈ st.routes, q.2.tool.name ≠ n) :
    MCPRegistryImpl.getRoute st n = none := by
  rw [MCPRegistryImpl.getRoute, List.find?_eq_none]
  intro rd hrd
  obtain ⟨p, hp, rfl⟩ := List.mem_map.mp hrd
  simp [H p hp]

theorem handleToolCall_unknown (ctx : Ctx) (st : MCPRegistryImpl) (idv : Value)
    (pkvs : List (String × Value)) (n : String)
    (hname : mapGet pkvs "name" = some (.str n))
    (hroute : MCPRegistryImpl.getRoute st n = none) :
    handleToolCall ctx st (toolCallBody idv pkvs) =
      .ok (.jsonBody (mkError idv (-32602)
        ("Unknown tool: " ++ n ++ ". Available tools: " ++
          joinComma ((MCPRegistryImpl.getTools st).map (fun t => t.name))))) := by
  have hp : getProp (toolCallBody idv pkvs) "params" = .obj pkvs := by
    with_unfolding_all rfl
  have hid : getProp (toolCallBody idv pkvs) "id" = idv := by
    with_unfolding_all rfl
  have hnv : getProp (.obj pkvs) "name" = .str n := by
    simp [getProp, hname]
  have hjr : jsGetRoute st (Value.str n) = MCPRegistryImpl.getRoute st n := rfl
  unfold handleToolCall
  rw [hp]
  dsimp only [destructureE]
  rw [hnv, hid, hjr, hroute]
  simp only [valueToString]

theorem handleToolCall_handler (ctx : Ctx) (st : MCPRegistryImpl) (idv : Value)
    (pkvs : List (String × Value)) (n : String) (rd : RouteDefinition) (h : ToolHandler)
    (hname : mapGet pkvs "name" = some (.str n))
    (hroute : MCPRegistryImpl.getRoute st n = some rd)
    (hhandler : rd.handler = some h) :
    handleToolCall ctx st (toolCallBody idv pkvs) =
      .ok (match h (getProp (.obj pkvs) "arguments") ctx.req with
        | .ok result => .jsonBody (mkResult idv (toolResultValue result))
        | .error e => .jsonBody (mkError idv (-32603) (errMsgOr e "Tool execution failed"))) := by
  have hp : getProp (toolCallBody idv pkvs) "params" = .obj pkvs := by
    with_unfolding_all rfl
  have hid : getProp (toolCallBody idv pkvs) "id" = idv := by
    with_unfolding_all rfl
  have hnv : getProp (.obj pkvs) "name" = .str n := by
    simp [getProp, hname]
  have hjr : jsGetRoute st (Value.str n) = MCPRegistryImpl.getRoute st n := rfl
  have hrun : runTool ctx rd (getProp (Value.obj pkvs) "arguments") =
      h (getProp (Value.obj pkvs) "arguments") ctx.req := by
    unfold runTool
    rw [hhandler]
  unfold handleToolCall
  rw [hp]
  dsimp only [destructureE]
  rw [hnv, hid, hjr, hroute]
  dsimp only []
  rw [hrun]
  cases hres : h (getProp (Value.obj pkvs) "arguments") ctx.req with
  | ok r => rfl
  | error e => rfl

theorem joinComma_mem_occurs (s : String) (l : List String) (h : s ∈ l) :
    ∃ x y : List Char, (joinComma l).data = x ++ s.data ++ y := by
  induction l with
  | nil => cases h
  | cons a rest ih =>
    cases rest with
    | nil =>
      rw [List.mem_singleton] at h
      subst h
      exact ⟨[], [], by simp [joinComma]⟩
    | cons b rest2 =>
      have hjc : joinComma (a :: b :: rest2) = a ++ ", " ++ joinComma (b :: rest2) := rfl
      rcases List.mem_cons.mp h with rfl | hmem
      · refine ⟨[], (", " ++ joinComma (b :: rest2)).data, ?_⟩
        rw [hjc, String.append_assoc, strData_append]
        simp
      · obtain ⟨x, y, hxy⟩ := ih hmem
        refine ⟨(a ++ ", ").data ++ x, y, ?_⟩
        rw [hjc, strData_append, hxy]
        simp [List.append_assoc]

theorem prefixed_ne_empty (p uri : String) (hp : p.length ≠ 0) :
    ((p ++ uri) == "") = false := by
  simp only [beq_eq_false_iff_ne, ne_eq]
  intro h
  have hlen := congrArg String.length h
  rw [String.length_append] at hlen
  simp only [String.length_empty] at hlen
  omega

theorem wellFormed_mkResult (id v : Value) : wellFormed (mkResult id v) := by
  simp [wellFormed, mkResult]

theorem wellFormed_mkError (id : Value) (c : Int) (m : String) : wellFormed (mkError id c m) := by
  simp [wellFormed, mkError]

theorem handleToolCall_ok_wf (ctx : Ctx) (st : MCPRegistryImpl) (body : Value) (out : MCPOut) :
    handleToolCall ctx st body = .ok out → ∃ r, out = .jsonBody r ∧ wellFormed r := by
  unfold handleToolCall
  intro h
  cases hd : destructureE (getProp body "params") with
  | error e =>
    rw [hd] at h
    dsimp only [] at h
    cases h
  | ok params =>
    rw [hd] at h
    dsimp only [] at h
    cases hr : jsGetRoute st (getProp params "name") with
    | none =>
      rw [hr] at h
      dsimp only [] at h
      cases h
      exact ⟨_, rfl, wellFormed_mkError _ _ _⟩
    | some rd =>
      rw [hr] at h
      dsimp only [] at h
      cases hres : runTool ctx rd (getProp params "arguments") with
      | ok result =>
        rw [hres] at h
        dsimp only [] at h
        cases h
        exact ⟨_, rfl, wellFormed_mkResult _ _⟩
      | error e =>
        rw [hres] at h
        dsimp only [] at h
        cases h
        exact ⟨_, rfl, wellFormed_mkError _ _ _⟩

theorem handleResourceRead_ok_wf (st : MCPRegistryImpl) (body : Value) (out : MCPOut) :
    handleResourceRead st body = .ok out → ∃ r, out = .jsonBody r ∧ wellFormed r := by
  unfold handleResourceRead
  intro h
  cases hd : destructureE (getProp body "params") with
  | error e =>
    rw [hd] at h
    dsimp only [] at h
    cases h
  | ok params =>
    rw [hd] at h
    dsimp only [] at h
    cases hr : MCPRegistryImpl.handleResourceRead st
        (valueToString (getProp params "uri")) params with
    | ok content =>
      rw [hr] at h
      dsimp only [] at h
      cases h
      exact ⟨_, rfl, wellFormed_mkResult _ _⟩
    | error e =>
      rw [hr] at h
      dsimp only [] at h
      cases h
      exact ⟨_, rfl, wellFormed_mkError _ _ _⟩

theorem handlePromptsGet_ok_wf (st : MCPRegistryImpl) (body : Value) (out : MCPOut) :
    handlePromptsGet st body = .ok out → ∃ r, out = .jsonBody r ∧ wellFormed r := by
  unfold handlePromptsGet
  intro h
  cases hd : destructureE (getProp body "params") with
  | error e =>
    rw [hd] at h
    dsimp only [] at h
    cases h
  | ok params =>
    rw [hd] at h
    dsimp only [] at h
    cases hr : MCPRegistryImpl.handlePromptGet st
        (valueToString (getProp params "name"))
        (if jsTruthy (getProp params "arguments") then getProp params "arguments"
         else Value.obj []) with
    | ok content =>
      rw [hr] at h
      dsimp only [] at h
      cases h
      exact ⟨_, rfl, wellFormed_mkResult _ _⟩
    | error e =>
      rw [hr] at h
      dsimp only [] at h
      cases h
      exact ⟨_, rfl, wellFormed_mkError _ _ _⟩

theorem handleToolCall_error_destructure (ctx : Ctx) (st : MCPRegistryImpl) (body : Value)
    (e : Err) (h : handleToolCall ctx st body = .error e) :
    destructureE (getProp body "params") = .error e := by
  unfold handleToolCall at h
  cases hd : destructureE (getProp body "params") with
  | error e2 =>
    rw [hd] at h
    dsimp only [] at h
    cases h
    rfl
  | ok params =>
    rw [hd] at h
    dsimp only [] at h
    cases hr : jsGetRoute st (getProp params "name") with
    | none =>
      rw [hr] at h
      dsimp only [] at h
      cases h
    | some rd =>
      rw [hr] at h
      dsimp only [] at h
      cases hres : runTool ctx rd (getProp params "arguments") with
      | ok result =>
        rw [hres] at h
        dsimp only [] at h
        cases h
      | error e2 =>
        rw [hres] at h
        dsimp only [] at h
        cases h

theorem handleResourceRead_error_destructure (st : MCPRegistryImpl) (body : Value)
    (e : Err) (h : handleResourceRead st body = .error e) :
    destructureE (getProp body "params") = .error e := by
  unfold handleResourceRead at h
  cases hd : destructureE (getProp body "params") with
  | error e2 =>
    rw [hd] at h
    dsimp only [] at h
    cases h
    rfl
  | ok params =>
    rw [hd] at h
    dsimp only [] at h
    cases hr : MCPRegistryImpl.handleResourceRead st
        (valueToString (getProp params "uri")) params with
    | ok content =>
      rw [hr] at h
      dsimp only [] at h
      cases h
    | error e2 =>
      rw [hr] at h
      dsimp only [] at h
      cases h

theorem handlePromptsGet_error_destructure (st : MCPRegistryImpl) (body : Value)
    (e : Err) (h : handlePromptsGet st body = .error e) :
    destructureE (getProp body "params") = .error e := by
  unfold handlePromptsGet at h
  cases hd : destructureE (getProp body "params") with
  | error e2 =>
    rw [hd] at h
    dsimp only [] at h
    cases h
    rfl
  | ok params =>
    rw [hd] at h
    dsimp only [] at h
    cases hr : MCPRegistryImpl.handlePromptGet st
        (valueToString (getProp params "name"))
        (if jsTruthy (getProp params "arguments") then getProp params "arguments"
         else Value.obj []) with
    | ok content =>
      rw [hr] at h
      dsimp only [] at h
      cases h
    | error e2 =>
      rw [hr] at h
      dsimp only [] at h
      cases h

theorem dispatchCore_ok_wf (ctx : Ctx) (st : MCPRegistryImpl) (body : Value)
    (out : TransportOutcome) (h : dispatchCore ctx st body = .ok out) :
    (out = .sent .ack ∧ isNotificationReq body = true) ∨
    (∃ r, out = .sent (.jsonBody r) ∧ wellFormed r) ∨
    (∃ e, out = .unhandledRejection e ∧
      destructureE (getProp body "params") = .error e) := by
  unfold dispatchCore at h
  cases hfe : getFieldE body "method" with
  | error e =>
    rw [hfe] at h
    dsimp only [] at h
    cases h
  | ok mv =>
    rw [hfe] at h
    dsimp only [] at h
    cases hm : asMethod mv with
    | error e =>
      rw [hm] at h
      dsimp only [] at h
      cases h
    | ok method =>
      rw [hm] at h
      dsimp only [] at h
      by_cases hsw : (method.startsWith "notifications/") = true
      · rw [if_pos hsw] at h
        cases h
        left
        refine ⟨rfl, ?_⟩
        cases mv with
        | str s =>
          have hs : s = method := by simpa [asMethod] using hm
          subst hs
          unfold isNotificationReq
          rw [hfe]
          exact hsw
        | undefined => simp [asMethod] at hm
        | null => simp [asMethod] at hm
        | bool b => simp [asMethod] at hm
        | num nn => simp [asMethod] at hm
        | arr xs => simp [asMethod] at hm
        | obj kvs => simp [asMethod] at hm
      · rw [if_neg hsw] at h
        split at h
        · cases h
          exact Or.inr (Or.inl ⟨_, rfl, by simp [handleInitialize, wellFormed, mkResult]⟩)
        · cases h
          exact Or.inr (Or.inl ⟨_, rfl, by simp [handleToolsList, wellFormed, mkResult]⟩)
        · cases h
          cases hh : handleToolCall ctx st body with
          | ok o =>
            obtain ⟨r, hor, hw⟩ := handleToolCall_ok_wf ctx st body o hh
            refine Or.inr (Or.inl ⟨r, ?_, hw⟩)
            rw [hor]
            rfl
          | error e =>
            exact Or.inr (Or.inr ⟨e, rfl, handleToolCall_error_destructure ctx st body e hh⟩)
        · cases h
          exact Or.inr (Or.inl ⟨_, rfl, by simp [handleResourcesList, wellFormed, mkResult]⟩)
        · cases h
          cases hh : handleResourceRead st body with
          | ok o =>
            obtain ⟨r, hor, hw⟩ := handleResourceRead_ok_wf st body o hh
            refine Or.inr (Or.inl ⟨r, ?_, hw⟩)
            rw [hor]
            rfl
          | error e =>
            exact Or.inr (Or.inr ⟨e, rfl, handleResourceRead_error_destructure st body e hh⟩)
        · cases h
          exact Or.inr (Or.inl ⟨_, rfl, by simp [handlePromptsList, wellFormed, mkResult]⟩)
        · cases h
          cases hh : handlePromptsGet st body with
          | ok o =>
            obtain ⟨r, hor, hw⟩ := handlePromptsGet_ok_wf st body o hh
            refine Or.inr (Or.inl ⟨r, ?_, hw⟩)
            rw [hor]
            rfl
          | error e =>
            exact Or.inr (Or.inr ⟨e, rfl, handlePromptsGet_error_destructure st body e hh⟩)
        · cases h
          exact Or.inr (Or.inl ⟨_, rfl, by simp [wellFormed, mkError]⟩)

/-- C1 counterexample: a `tools/call` body with no `params` field is a
non-notification request the dispatcher accepts, yet the destructure
inside the async handler rejects the returned promise — the synchronous
top-level catch never sees it, so no JSON-RPC response (neither the
claimed `-32603` id-0 envelope nor anything else) is produced. -/
theorem C1_async_rejection_counterexample :
    isNotificationReq exNoParamsBody = false ∧
    dispatch exCtx emptyRegistry exNoParamsBody =
      .unhandledRejection ⟨"Cannot destructure property of undefined"⟩ ∧
    dispatch exCtx emptyRegistry exNoParamsBody ≠
      .sent (.jsonBody (mkError (.num 0) (-32603) "Internal error")) ∧
    dispatch exCtx emptyRegistry exNoParamsBody ≠ .sent .ack := by
  have he : dispatch exCtx emptyRegistry exNoParamsBody =
      .unhandledRejection ⟨"Cannot destructure property of undefined"⟩ := by
    with_unfolding_all rfl
  refine ⟨by with_unfolding_all rfl, he, ?_, ?_⟩
  · rw [he]
    simp
  · rw [he]
    simp

/-- C1 (amended): exceptions thrown synchronously in the middleware body
(nullish body, missing or non-string `method`) are caught at the top level
and answered `-32603` `Internal error` with id `0`; every other accepted
request yields either the notification ack or exactly one well-formed
JSON-RPC response — except that a throw in an async handler's pre-`try`
destructuring of `params` (`tools/call`, `resources/read`, `prompts/get`
with nullish `params`) escapes as an unhandled promise rejection and
produces no JSON-RPC response at all; that destructure is the only such
escape. -/
theorem C1_sync_catch_async_rejection_escape (ctx : Ctx) (st : MCPRegistryImpl) (body : Value) :
    ((∃ r, dispatch ctx st body = .sent (.jsonBody r) ∧ wellFormed r) ∨
      (dispatch ctx st body = .sent .ack ∧ isNotificationReq body = true) ∨
      (∃ e, dispatch ctx st body = .unhandledRejection e)) ∧
    (∀ e, dispatchCore ctx st body = .error e →
      dispatch ctx st body = .sent (.jsonBody (mkError (.num 0) (-32603) "Internal error"))) ∧
    (∀ e, dispatch ctx st body = .unhandledRejection e →
      destructureE (getProp body "params") = .error e) := by
  refine ⟨?_, ?_, ?_⟩
  · cases hd : dispatchCore ctx st body with
    | error e =>
      left
      refine ⟨mkError (.num 0) (-32603) "Internal error", ?_, wellFormed_mkError _ _ _⟩
      unfold dispatch
      rw [hd]
    | ok out =>
      rcases dispatchCore_ok_wf ctx st body out hd with ⟨ha, hn⟩ | ⟨r, rfl, hw⟩ | ⟨e, rfl, _⟩
      · right
        left
        refine ⟨?_, hn⟩
        unfold dispatch
        rw [hd, ha]
      · left
        refine ⟨r, ?_, hw⟩
        unfold dispatch
        rw [hd]
      · right
        right
        refine ⟨e, ?_⟩
        unfold dispatch
        rw [hd]
  · intro e he
    unfold dispatch
    rw [he]
  · intro e he
    cases hd : dispatchCore ctx st body with
    | error e2 =>
      unfold dispatch at he
      rw [hd] at he
      dsimp only [] at he
      cases he
    | ok out =>
      unfold dispatch at he
      rw [hd] at he
      dsimp only [] at he
      rcases dispatchCore_ok_wf ctx st body out hd with ⟨ha, _⟩ | ⟨r, rfl, _⟩ | ⟨e2, rfl, hde⟩
      · rw [ha] at he
        cases he
      · cases he
      · cases he
        exact hde

/-- C1 witness: a nullish body (whose `method` read throws synchronously)
is answered by the generic internal error with id `0`, while a missing
`params` on `tools/call` is pinned to the destructure throw. -/
theorem C1_sync_catch_async_rejection_escape_witness :
    dispatch exCtx emptyRegistry .null =
      .sent (.jsonBody (mkError (.num 0) (-32603) "Internal error")) ∧
    destructureE (getProp exNoParamsBody "params") =
      .error ⟨"Cannot destructure property of undefined"⟩ :=
  ⟨(C1_sync_catch_async_rejection_escape exCtx emptyRegistry .null).2.1
      ⟨"Cannot read properties of null"⟩ rfl,
   (C1_sync_catch_async_rejection_escape exCtx emptyRegistry exNoParamsBody).2.2
      ⟨"Cannot destructure property of undefined"⟩ (by with_unfolding_all rfl)⟩

/-- C8: every request whose method string starts with `notifications/` —
any suffix, recognized or not — is routed to the notification path and
answered with the bare success acknowledgment: no JSON-RPC body, hence no
`result` and no `error` field. -/
theorem C8_notifications_acknowledged_without_body (ctx : Ctx) (st : MCPRegistryImpl)
    (body : Value) (m : String)
    (h1 : getFieldE body "method" = .ok (.str m))
    (h2 : m.startsWith "notifications/" = true) :
    dispatch ctx st body = .sent .ack := by
  unfold dispatch dispatchCore
  rw [h1]
  dsimp only [asMethod]
  rw [h2]
  rfl

/-- C8 witness: an unrecognized notification suffix still yields the bare
acknowledgment. -/
theorem C8_notifications_acknowledged_without_body_witness :
    dispatch exCtx emptyRegistry
      (.obj [("method", .str "notifications/unknown-kind")]) = .sent .ack :=
  C8_notifications_acknowledged_without_body exCtx emptyRegistry _
    "notifications/unknown-kind" (by with_unfolding_all rfl) (by with_unfolding_all rfl)

/-- C6: `tools/call` with a name matching no stored route's tool name is
answered with error `-32602` whose message appends the comma-joined list
of every currently registered tool name — each registered name occurs in
the message. -/
theorem C6_unknown_tool_lists_available (ctx : Ctx) (st : MCPRegistryImpl) (idv : Value)
    (pkvs : List (String × Value)) (n : String)
    (hname : mapGet pkvs "name" = some (.str n))
    (hno : ∀ q ∈ st.routes, q.2.tool.name ≠ n) :
    dispatch ctx st (toolCallBody idv pkvs) =
      .sent (.jsonBody (mkError idv (-32602)
        ("Unknown tool: " ++ n ++ ". Available tools: " ++
          joinComma ((MCPRegistryImpl.getTools st).map (fun t => t.name))))) ∧
    ∀ t ∈ MCPRegistryImpl.getTools st, ∃ x y : List Char,
      ("Unknown tool: " ++ n ++ ". Available tools: " ++
        joinComma ((MCPRegistryImpl.getTools st).map (fun t => t.name))).data =
        x ++ t.name.data ++ y := by
  have hm : getFieldE (toolCallBody idv pkvs) "method" = .ok (.str "tools/call") := by
    with_unfolding_all rfl
  constructor
  · unfold dispatch
    rw [dispatchCore_toolsCall ctx st _ hm,
      handleToolCall_unknown ctx st idv pkvs n hname (getRoute_eq_none st n hno)]
    rfl
  · intro t ht
    have hmem : t.name ∈ (MCPRegistryImpl.getTools st).map (fun t => t.name) :=
      List.mem_map.mpr ⟨t, ht, rfl⟩
    obtain ⟨x, y, hxy⟩ :=
      joinComma_mem_occurs t.name ((MCPRegistryImpl.getTools st).map (fun t => t.name)) hmem
    refine ⟨("Unknown tool: " ++ n ++ ". Available tools: ").data ++ x, y, ?_⟩
    simp only [strData_append, hxy, List.append_assoc]

/-- C6 witness: two registered tools `alpha`, `beta`; calling unknown `X`
yields `-32602` with both names in the message. -/
theorem C6_unknown_tool_lists_available_witness :
    dispatch exCtx
      ⟨[("GET:/a", ⟨"GET", "/a", ⟨"alpha", "da", .obj []⟩, none⟩),
        ("GET:/b", ⟨"GET", "/b", ⟨"beta", "db", .obj []⟩, none⟩)], []⟩
      (toolCallBody (.num 7) [("name", .str "X")]) =
      .sent (.jsonBody (mkError (.num 7) (-32602)
        ("Unknown tool: " ++ "X" ++ ". Available tools: " ++
          joinComma ((MCPRegistryImpl.getTools
            ⟨[("GET:/a", ⟨"GET", "/a", ⟨"alpha", "da", .obj []⟩, none⟩),
              ("GET:/b", ⟨"GET", "/b", ⟨"beta", "db", .obj []⟩, none⟩)], []⟩).map
            (fun t => t.name))))) :=
  (C6_unknown_tool_lists_available exCtx
    ⟨[("GET:/a", ⟨"GET", "/a", ⟨"alpha", "da", .obj []⟩, none⟩),
      ("GET:/b", ⟨"GET", "/b", ⟨"beta", "db", .obj []⟩, none⟩)], []⟩
    (.num 7) [("name", .str "X")] "X" rfl
    (by intro q hq
        simp only [List.mem_cons, List.not_mem_nil, or_false] at hq
        rcases hq with rfl | rfl <;> with_unfolding_all decide)).1

/-- C9: a tool whose route has a custom handler never consults the
network — the dispatch result is identical under any two network
behaviors — and on handler success the response is exactly the handler's
awaited result wrapped in the standard content envelope. -/
theorem C9_custom_handler_ignores_network (req : ReqInfo) (ep : Option String)
    (net₁ net₂ : Network) (st : MCPRegistryImpl) (idv : Value)
    (pkvs : List (String × Value)) (n : String) (rd : RouteDefinition) (h : ToolHandler)
    (hname : mapGet pkvs "name" = some (.str n))
    (hroute : MCPRegistryImpl.getRoute st n = some rd)
    (hhandler : rd.handler = some h) :
    dispatch ⟨req, ep, net₁⟩ st (toolCallBody idv pkvs) =
      dispatch ⟨req, ep, net₂⟩ st (toolCallBody idv pkvs) ∧
    (∀ v : Value, h (getProp (.obj pkvs) "arguments") req = .ok v →
      dispatch ⟨req, ep, net₁⟩ st (toolCallBody idv pkvs) =
        .sent (.jsonBody (mkResult idv (toolResultValue v)))) := by
  have hm : getFieldE (toolCallBody idv pkvs) "method" = .ok (.str "tools/call") := by
    with_unfolding_all rfl
  have e1 := handleToolCall_handler ⟨req, ep, net₁⟩ st idv pkvs n rd h hname hroute hhandler
  have e2 := handleToolCall_handler ⟨req, ep, net₂⟩ st idv pkvs n rd h hname hroute hhandler
  constructor
  · unfold dispatch
    rw [dispatchCore_toolsCall _ st _ hm, dispatchCore_toolsCall _ st _ hm, e1, e2]
  · intro v hv
    unfold dispatch
    rw [dispatchCore_toolsCall _ st _ hm, e1]
    rw [show (⟨req, ep, net₁⟩ : Ctx).req = req from rfl, hv]
    rfl

/-- C9 witness: a concrete handler-backed tool dispatched under both the
ok-network and the rejecting network gives the same, handler-determined
response. -/
theorem C9_custom_handler_ignores_network_witness :
    dispatch ⟨exReq, none, exNetOk⟩
      ⟨[("GET:/c", ⟨"GET", "/c", ⟨"gamma", "dg", .obj []⟩,
          some (fun _ _ => .ok (.str "from-handler"))⟩)], []⟩
      (toolCallBody (.num 7) [("name", .str "gamma")]) =
      dispatch ⟨exReq, none, exNetErr⟩
        ⟨[("GET:/c", ⟨"GET", "/c", ⟨"gamma", "dg", .obj []⟩,
            some (fun _ _ => .ok (.str "from-handler"))⟩)], []⟩
        (toolCallBody (.num 7) [("name", .str "gamma")]) ∧
    dispatch ⟨exReq, none, exNetOk⟩
      ⟨[("GET:/c", ⟨"GET", "/c", ⟨"gamma", "dg", .obj []⟩,
          some (fun _ _ => .ok (.str "from-handler"))⟩)], []⟩
      (toolCallBody (.num 7) [("name", .str "gamma")]) =
      .sent (.jsonBody (mkResult (.num 7) (toolResultValue (.str "from-handler")))) := by
  have hc := C9_custom_handler_ignores_network exReq none exNetOk exNetErr
    ⟨[("GET:/c", ⟨"GET", "/c", ⟨"gamma", "dg", .obj []⟩,
        some (fun _ _ => .ok (.str "from-handler"))⟩)], []⟩
    (.num 7) [("name", .str "gamma")] "gamma"
    ⟨"GET", "/c", ⟨"gamma", "dg", .obj []⟩, some (fun _ _ => .ok (.str "from-handler"))⟩
    (fun _ _ => .ok (.str "from-handler")) rfl (by with_unfolding_all rfl) rfl
  exact ⟨hc.1, hc.2 (.str "from-handler") rfl⟩

/-- C7 (amended): `resources/read` for a URI with no configured handler is
answered with `-32603` and the exact message
`No handler for resource: <uri>` (capital `N`); when a handler exists and
resolves, its awaited result is wrapped in the contents envelope and no
error is produced. -/
theorem C7_resource_read_handler_lookup (ctx : Ctx) (st : MCPRegistryImpl) (idv : Value)
    (pkvs : List (String × Value)) (uri : String)
    (huri : mapGet pkvs "uri" = some (.str uri)) :
    (mapGet (MCPRegistryImpl.resourceHandlers st) uri = none →
      dispatch ctx st (resReadBody idv pkvs) =
        .sent (.jsonBody (mkError idv (-32603) ("No handler for resource: " ++ uri)))) ∧
    (∀ (hdl : Handler) (v : Value),
      mapGet (MCPRegistryImpl.resourceHandlers st) uri = some hdl →
      hdl (.obj pkvs) = .ok v →
      dispatch ctx st (resReadBody idv pkvs) =
        .sent (.jsonBody (mkResult idv (.obj [("contents", .arr [.obj [
          ("uri", .str uri),
          ("mimeType", .str "application/json"),
          ("text", .str (textOf v))]])])))) := by
  have hm : getFieldE (resReadBody idv pkvs) "method" = .ok (.str "resources/read") := by
    with_unfolding_all rfl
  have hp : getProp (resReadBody idv pkvs) "params" = .obj pkvs := by
    with_unfolding_all rfl
  have hid : getProp (resReadBody idv pkvs) "id" = idv := by
    with_unfolding_all rfl
  have huv : getProp (.obj pkvs) "uri" = .str uri := by
    simp [getProp, huri]
  constructor
  · intro hnone
    unfold dispatch
    rw [dispatchCore_resourcesRead ctx st _ hm]
    dsimp only []
    unfold handleResourceRead
    rw [hp]
    dsimp only [destructureE]
    rw [huv, hid]
    simp only [valueToString]
    rw [MCPRegistryImpl.handleResourceRead, hnone]
    dsimp only [errMsgOr]
    rw [prefixed_ne_empty "No handler for resource: " uri (by decide)]
    rfl
  · intro hdl v hsome hok
    unfold dispatch
    rw [dispatchCore_resourcesRead ctx st _ hm]
    dsimp only []
    unfold handleResourceRead
    rw [hp]
    dsimp only [destructureE]
    rw [huv, hid]
    simp only [valueToString]
    rw [MCPRegistryImpl.handleResourceRead, hsome]
    dsimp only []
    rw [hok]
    rfl

/-- C7 counterexample: the claim's message is lower-case
`no handler for resource: <uri>`, but the code throws and reports
`No handler for resource: <uri>` with a capital `N`. -/
theorem C7_resource_read_message_case_counterexample :
    dispatch exCtx emptyRegistry (resReadBody (.num 7) [("uri", .str "x")]) =
      .sent (.jsonBody (mkError (.num 7) (-32603) "No handler for resource: x")) ∧
    "No handler for resource: x" ≠ "no handler for resource: x" := by
  constructor
  · with_unfolding_all rfl
  · decide

/-- C7 witness: a configured handler for `mem://a` resolves and its result
is wrapped with no error; the lookup hypotheses are discharged on concrete
state. -/
theorem C7_resource_read_handler_lookup_witness :
    dispatch exCtx
      ⟨[], [("resourceHandlers", .handlers [("mem://a", fun _ => .ok (.str "hi"))])]⟩
      (resReadBody (.num 7) [("uri", .str "mem://a")]) =
      .sent (.jsonBody (mkResult (.num 7) (.obj [("contents", .arr [.obj [
        ("uri", .str "mem://a"),
        ("mimeType", .str "application/json"),
        ("text", .str (textOf (.str "hi")))]])]))) :=
  (C7_resource_read_handler_lookup exCtx
    ⟨[], [("resourceHandlers", .handlers [("mem://a", fun _ => .ok (.str "hi"))])]⟩
    (.num 7) [("uri", .str "mem://a")] "mem://a" rfl).2
    (fun _ => .ok (.str "hi")) (.str "hi") (by with_unfolding_all rfl) rfl

end ExpressMCP
